import Mathlib

/-!
Shallow embedding of `src/conn.rs` of the dbus-pure repository: the
`Connection` transport (receive buffer with cursor, send buffer, server
GUID), the `Connection::new` handshake (session-bus address resolution,
SASL EXTERNAL identity encoding, authentication-response parsing), and
the steady-state operations `recv`, `consume`, `flush`.

Bytes are modelled as `Nat`, byte strings as `List Nat`.  Socket I/O is
modelled by explicit oracles: `recv` takes the chunk of bytes the OS
read call returns (`none` for an OS error), `flush` takes a success
flag for its underlying `write_all` call (the `UnixStream` socket-level
flush that follows it cannot fail), and `Connection::new` takes
the environment-variable value, a connect-success flag and the
authentication response line that `read_until` produced.  Rust slice
indexing that can panic is modelled by an explicit `panicOOB` outcome.
-/

/-- Byte value of `'\r'`. -/
def crByte : Nat := 13

/-- Byte value of `'\n'`. -/
def lfByte : Nat := 10

/-- Model of a socket read into a slice: `writeAt buf off chunk` models `Read::read` writing `chunk` into the
slice `buf[off..]`: position `i` receives `chunk[i - off]` when
`off ≤ i < off + chunk.length`, and keeps `buf[i]` otherwise.  The
length of the buffer is unchanged. -/
def writeAt (buf : List Nat) (off : Nat) (chunk : List Nat) : List Nat :=
  (List.range buf.length).map fun i =>
    if off ≤ i ∧ i < off + chunk.length then chunk.getD (i - off) 0 else buf.getD i 0

/-- Model of buffer compaction: `copyWithin buf src stop` models Rust's
`buf.copy_within(src..stop, 0)`: position `i` receives `buf[src + i]`
when `i < stop - src`, and keeps `buf[i]` otherwise.  The length of the
buffer is unchanged. -/
def copyWithin (buf : List Nat) (src stop : Nat) : List Nat :=
  (List.range buf.length).map fun i =>
    if i < stop - src then buf.getD (src + i) 0 else buf.getD i 0

/-- The `Connection` struct of `conn.rs` (the two socket halves are
modelled by the oracles passed to each operation). -/
structure Connection where
  readBuf : List Nat
  readEnd : Nat
  writeBuf : List Nat
  serverGuid : List Nat
  deriving Repr, DecidableEq

namespace Connection

/-- Accessor `Connection::server_guid`: returns the stored server GUID. -/
def server_guid (c : Connection) : List Nat :=
  c.serverGuid

/-- Accessor `Connection::read_buf`: the currently buffered, unconsumed bytes
`&self.read_buf[..self.read_end]`. -/
def read_buf (c : Connection) : List Nat :=
  c.readBuf.take c.readEnd

/-- Accessor `Connection::write_buf` hands the caller `&mut Vec<u8>`; a caller
mutating through it is modelled as replacing the send buffer. -/
def set_write_buf (c : Connection) (wb : List Nat) : Connection :=
  { c with writeBuf := wb }

/-- Result of `Connection::recv`. -/
inductive RecvResult where
  | ok
  | unexpectedEof
  | ioError
  deriving Repr, DecidableEq

/-- Operation `Connection::recv`.  `sock` is what `self.reader.read(&mut
self.read_buf[self.read_end..])` produced: `none` for an OS error
(propagated by `?`), `some chunk` for a successful read of `chunk`.
The buffer is doubled first when it is full; a zero-byte read is the
`UnexpectedEof` error; otherwise the chunk lands at `read_end` and the
cursor advances. -/
def recv (c : Connection) (sock : Option (List Nat)) : RecvResult × Connection :=
  let buf :=
    if c.readEnd = c.readBuf.length then
      c.readBuf ++ List.replicate c.readBuf.length 0
    else
      c.readBuf
  match sock with
  | none => (.ioError, { c with readBuf := buf })
  | some chunk =>
    if chunk.length = 0 then
      (.unexpectedEof, { c with readBuf := buf })
    else
      (.ok, { c with readBuf := writeAt buf c.readEnd chunk,
                     readEnd := c.readEnd + chunk.length })

/-- Operation `Connection::consume`: compacts the buffer by
`read_buf.copy_within(consumed..read_end, 0)` and moves the cursor back
by `consumed`. -/
def consume (c : Connection) (consumed : Nat) : Connection :=
  { c with readBuf := copyWithin c.readBuf consumed c.readEnd,
           readEnd := c.readEnd - consumed }

/-- Operation `Connection::flush`.  `writeAllOk` is whether
`self.writer.write_all(&self.write_buf)` succeeded; the returned `Bool`
is whether `flush` returned `Ok(())`.  The send buffer is cleared
right after a successful `write_all`.  The subsequent
`self.writer.flush()` is not an oracle: `self.writer` is a
`std::os::unix::net::UnixStream`, whose `Write::flush` implementation
unconditionally returns `Ok(())` (sockets are unbuffered), so
`write_all` is the only fallible step of the source function. -/
def flush (c : Connection) (writeAllOk : Bool) : Bool × Connection :=
  if !writeAllOk then
    (false, c)
  else
    (true, { c with writeBuf := ([] : List Nat) })

end Connection

/-- The bytes of `"OK "`. -/
def okTagBytes : List Nat := [79, 75, 32]

/-- The bytes of `"unix:path="`. -/
def unixPathTagBytes : List Nat := [117, 110, 105, 120, 58, 112, 97, 116, 104, 61]

/-- The `BusPath` enum of `conn.rs` (paths as byte strings). -/
inductive BusPath where
  | session
  | unixSocketFile (p : List Nat)
  deriving Repr, DecidableEq

/-- The `ConnectError` enum of `conn.rs`.  `authenticate` carries a
generic `std::io::Error` in the source, which the model does not
inspect; `connect` carries the bus path it failed to reach;
`sessionBusEnvVar` carries the absent or raw malformed value. -/
inductive ConnectError where
  | authenticate
  | connect (busPath : List Nat)
  | sessionBusEnvVar (value : Option (List Nat))
  deriving Repr, DecidableEq

/-- The bus-path resolution at the top of `Connection::new`: `env` is
the value of the `DBUS_SESSION_BUS_ADDRESS` environment variable (as
bytes).  For `BusPath::Session` an absent variable is
`SessionBusEnvVar(None)`; a value not starting with `unix:path=` is
`SessionBusEnvVar(Some(value))`; otherwise the bytes after the tag are
the filesystem path.  An explicit `UnixSocketFile` path is used as
given. -/
def resolveBusPath (busPath : BusPath) (env : Option (List Nat)) :
    Except ConnectError (List Nat) :=
  match busPath with
  | .unixSocketFile p => .ok p
  | .session =>
    match env with
    | none => .error (.sessionBusEnvVar none)
    | some v =>
      if unixPathTagBytes.isPrefixOf v then
        .ok (v.drop unixPathTagBytes.length)
      else
        .error (.sessionBusEnvVar (some v))

/-- The carriage-return check of `Connection::new`:
`read_buf.iter().rev().nth(1).copied() == Some(b'\r')`, i.e. the
second-to-last byte of the response line is `'\r'`. -/
def crCheck (line : List Nat) : Bool :=
  line.reverse[1]? == some crByte

/-- Outcome of parsing the authentication response line in
`Connection::new`. -/
inductive AuthOutcome where
  | ok (guid : List Nat)
  | authErr
  | panicOOB
  deriving Repr, DecidableEq

/-- The response handling of `Connection::new` after
`read_until(b'\n')` filled `read_buf` with `line`:  first the
carriage-return check (failure is the `Authenticate` "malformed
response" error), then the `OK ` prefix check (failure likewise), then
the slice `&read_buf[3..3 + 32]`, which in Rust panics when the line is
shorter than 35 bytes (`panicOOB`); on success the sliced 32 bytes are
the server GUID. -/
def processAuthLine (line : List Nat) : AuthOutcome :=
  if ¬ crCheck line then
    .authErr
  else if line.take okTagBytes.length = okTagBytes then
    if okTagBytes.length + 32 ≤ line.length then
      .ok ((line.drop okTagBytes.length).take 32)
    else
      .panicOOB
  else
    .authErr

/-- Outcome of `Connection::new`. -/
inductive NewOutcome where
  | conn (c : Connection)
  | err (e : ConnectError)
  | panicOOB
  deriving Repr, DecidableEq

/-- Constructor `Connection::new`.  Oracles: `env` is the
`DBUS_SESSION_BUS_ADDRESS` value, `connectOk` whether
`UnixStream::connect` succeeded on the resolved path, and `line` the
authentication response that `read_until(b'\n')` produced (socket
writes of the `AUTH` and `BEGIN` lines are assumed to succeed, as they
must have for a response line to exist).  On success the fields are
exactly those built in the source: `read_buf` cleared then resized to
one zero byte, `read_end` 0, an empty write buffer, and the GUID sliced
from the response line. -/
def connectionNew (busPath : BusPath) (env : Option (List Nat)) (connectOk : Bool)
    (line : List Nat) : NewOutcome :=
  match resolveBusPath busPath env with
  | .error e => .err e
  | .ok p =>
    if ¬ connectOk then
      .err (.connect p)
    else
      match processAuthLine line with
      | .ok guid => .conn { readBuf := [0], readEnd := 0, writeBuf := [], serverGuid := guid }
      | .authErr => .err .authenticate
      | .panicOOB => .panicOOB

/-- Model of `format!("{:2x}", m)`: lowercase hexadecimal digits of `m`, padded
on the left with spaces to a minimum width of 2. -/
def formatHexWidth2 (m : Nat) : List Char :=
  let s := Nat.toDigits 16 m
  List.replicate (2 - s.length) ' ' ++ s

/-- The `SaslAuthType::Uid` identity string of `Connection::new`:
`getuid().to_string().chars().map(|c| format!("{:2x}", c as u32)).collect()`,
with `Nat.toDigits 10` modelling `to_string` (decimal digits,
most-significant first) and `Char.toNat` modelling `c as u32`. -/
def saslAuthIdUid (uid : Nat) : List Char :=
  (Nat.toDigits 10 uid).flatMap fun c => formatHexWidth2 c.toNat

/-- Stated from the spec's words, to be compared with `saslAuthIdUid`:
take the decimal-string form of the credential and replace each decimal
digit character by the two hexadecimal characters of that character's
ASCII code point (high nibble then low nibble). -/
def specUidIdentity (uid : Nat) : List Char :=
  (Nat.toDigits 10 uid).flatMap fun c =>
    [Nat.digitChar (c.toNat / 16), Nat.digitChar (c.toNat % 16)]

/-- The lowercase hexadecimal digits of the numeric value itself
(`format!("{:x}", uid)`), which the spec says the identity encoding is
NOT. -/
def hexOfValue (uid : Nat) : List Char :=
  Nat.toDigits 16 uid

/-! ## Helper lemmas -/

theorem writeAt_length (buf : List Nat) (off : Nat) (chunk : List Nat) :
    (writeAt buf off chunk).length = buf.length := by
  simp [writeAt]

theorem copyWithin_length (buf : List Nat) (src stop : Nat) :
    (copyWithin buf src stop).length = buf.length := by
  simp [copyWithin]

theorem copyWithin_getElem_lt (buf : List Nat) (src stop i : Nat)
    (hi : i < stop - src) (hlen : i < buf.length) :
    (copyWithin buf src stop)[i]? = some (buf.getD (src + i) 0) := by
  simp [copyWithin, List.getElem?_map, List.getElem?_range hlen, hi]

theorem getD_elem_of_lt (l : List Nat) (i : Nat) (h : i < l.length) :
    l[i]? = some (l.getD i 0) := by
  simp [List.getD_eq_getElem?_getD, List.getElem?_eq_getElem h]

/-! ## Claim theorems -/

/-- C4: for every connection state and every `n` at most the number of
currently buffered unconsumed bytes, `consume n` leaves exactly
`available - n` bytes buffered, and the `i`-th remaining byte equals
the `(n + i)`-th byte before the call. -/
theorem consume_keeps_remaining_bytes (c : Connection) (n : Nat)
    (h1 : n ≤ c.readEnd) (h2 : c.readEnd ≤ c.readBuf.length) :
    (c.consume n).read_buf.length = c.read_buf.length - n
    ∧ ∀ i : Nat, i < c.read_buf.length - n →
        (c.consume n).read_buf[i]? = c.read_buf[n + i]? := by
  have hrb : c.read_buf.length = c.readEnd := by
    simp [Connection.read_buf, List.length_take]
    omega
  constructor
  · simp [Connection.consume, Connection.read_buf, List.length_take, copyWithin_length]
    omega
  · intro i hi
    have hi' : i < c.readEnd - n := by omega
    have hl : (c.consume n).read_buf
        = (copyWithin c.readBuf n c.readEnd).take (c.readEnd - n) := rfl
    have hr : c.read_buf = c.readBuf.take c.readEnd := rfl
    rw [hl, List.getElem?_take_of_lt hi',
      copyWithin_getElem_lt c.readBuf n c.readEnd i hi' (by omega),
      hr, List.getElem?_take_of_lt (show n + i < c.readEnd by omega),
      getD_elem_of_lt c.readBuf (n + i) (by omega)]

/-- C4 witness: a concrete connection with five buffered bytes of which
four are available, consuming two. -/
theorem consume_keeps_remaining_bytes_witness :
    (2 ≤ (Connection.mk [1, 2, 3, 4, 5] 4 [] []).readEnd
      ∧ (Connection.mk [1, 2, 3, 4, 5] 4 [] []).readEnd
          ≤ (Connection.mk [1, 2, 3, 4, 5] 4 [] []).readBuf.length)
    ∧ ((Connection.mk [1, 2, 3, 4, 5] 4 [] []).consume 2).read_buf.length
        = (Connection.mk [1, 2, 3, 4, 5] 4 [] []).read_buf.length - 2 :=
  ⟨⟨by decide, by decide⟩,
    (consume_keeps_remaining_bytes (Connection.mk [1, 2, 3, 4, 5] 4 [] []) 2
      (by decide) (by decide)).1⟩

/-- C5: a zero-byte socket read makes `recv` return the unexpected
end-of-stream error, leaves the buffered-byte count unchanged, and is
never treated as success. -/
theorem recv_zero_read_is_eof (c : Connection) :
    (c.recv (some [])).1 = Connection.RecvResult.unexpectedEof
    ∧ (c.recv (some [])).2.readEnd = c.readEnd
    ∧ (c.recv (some [])).1 ≠ Connection.RecvResult.ok := by
  refine ⟨?_, ?_, ?_⟩ <;> simp [Connection.recv]

/-- C6: `recv` doubles the receive buffer's length exactly when the
buffer is full at entry and otherwise leaves it unchanged, and no
operation (`recv`, `consume`, `flush`, write-buffer replacement) ever
shrinks the receive buffer. -/
theorem recv_doubles_when_full (c : Connection) (sock : Option (List Nat)) (n : Nat)
    (w : Bool) (wb : List Nat) :
    (c.recv sock).2.readBuf.length
        = (if c.readEnd = c.readBuf.length then 2 * c.readBuf.length else c.readBuf.length)
    ∧ c.readBuf.length ≤ (c.recv sock).2.readBuf.length
    ∧ (c.consume n).readBuf.length = c.readBuf.length
    ∧ ((c.flush w).2).readBuf = c.readBuf
    ∧ (c.set_write_buf wb).readBuf = c.readBuf := by
  have hgrow : (c.recv sock).2.readBuf.length
      = (if c.readEnd = c.readBuf.length then 2 * c.readBuf.length else c.readBuf.length) := by
    rcases sock with _ | chunk
    · simp [Connection.recv]
      split_ifs <;> simp <;> omega
    · by_cases hc : chunk.length = 0 <;>
        simp [Connection.recv, hc, writeAt_length] <;> split_ifs <;> simp <;> omega
  refine ⟨hgrow, ?_, ?_, ?_, ?_⟩
  · rw [hgrow]; split_ifs <;> omega
  · simp [Connection.consume, copyWithin_length]
  · cases w <;> simp [Connection.flush]
  · simp [Connection.set_write_buf]

/-- C8: no operation on a `Connection` (`recv`, `consume`, `flush`,
write-buffer replacement) ever changes the byte string returned by
`server_guid`. -/
theorem server_guid_never_changes (c : Connection) (sock : Option (List Nat)) (n : Nat)
    (w : Bool) (wb : List Nat) :
    ((c.recv sock).2).server_guid = c.server_guid
    ∧ (c.consume n).server_guid = c.server_guid
    ∧ ((c.flush w).2).server_guid = c.server_guid
    ∧ (c.set_write_buf wb).server_guid = c.server_guid := by
  refine ⟨?_, ?_, ?_, ?_⟩
  · rcases sock with _ | chunk
    · simp [Connection.recv, Connection.server_guid]
    · by_cases hc : chunk = [] <;> simp [Connection.recv, Connection.server_guid, hc]
  · simp [Connection.consume, Connection.server_guid]
  · cases w <;> simp [Connection.flush, Connection.server_guid]
  · simp [Connection.set_write_buf, Connection.server_guid]

/-- C10: `flush` empties the send buffer exactly when it succeeds: on
a nonempty send buffer the result buffer is empty iff `flush` returned
success; a failure of writing the buffered bytes leaves them
unchanged; success leaves the buffer empty.  (The only fallible step of
the source function is `write_all`: the subsequent `UnixStream` flush
is unconditionally `Ok(())`.) -/
theorem flush_empties_iff_success (c : Connection) (w : Bool)
    (hne : c.writeBuf ≠ []) :
    ((c.flush w).2.writeBuf = [] ↔ (c.flush w).1 = true)
    ∧ ((c.flush w).1 = false → (c.flush w).2.writeBuf = c.writeBuf)
    ∧ ((c.flush w).1 = true → (c.flush w).2.writeBuf = []) := by
  cases w <;> simp [Connection.flush, hne]

/-- C10 witness: a concrete connection with bytes `[1, 2]` buffered
for sending, over both oracle values. -/
theorem flush_empties_iff_success_witness :
    ((Connection.mk [0] 0 [1, 2] []).writeBuf ≠ []
      ∧ (((Connection.mk [0] 0 [1, 2] []).flush true).2.writeBuf = []
          ↔ ((Connection.mk [0] 0 [1, 2] []).flush true).1 = true))
    ∧ (((Connection.mk [0] 0 [1, 2] []).flush false).1 = false →
        ((Connection.mk [0] 0 [1, 2] []).flush false).2.writeBuf
          = (Connection.mk [0] 0 [1, 2] []).writeBuf) :=
  ⟨⟨by decide,
    (flush_empties_iff_success (Connection.mk [0] 0 [1, 2] []) true (by decide)).1⟩,
    (flush_empties_iff_success (Connection.mk [0] 0 [1, 2] []) false (by decide)).2.1⟩

/-- C3: with `BusPath::Session`, an absent `DBUS_SESSION_BUS_ADDRESS`
yields `SessionBusEnvVar(None)`; a value not starting with
`unix:path=` yields `SessionBusEnvVar` carrying the raw value; a value
`unix:path=` followed by `P` resolves to the filesystem path `P`, to
which the connection is then attempted (visible in the `Connect` error
when the socket connect fails). -/
theorem session_bus_address_resolution (p line : List Nat) :
    connectionNew .session none true line = .err (.sessionBusEnvVar none)
    ∧ (∀ v : List Nat, unixPathTagBytes.isPrefixOf v = false →
        connectionNew .session (some v) true line = .err (.sessionBusEnvVar (some v)))
    ∧ resolveBusPath .session (some (unixPathTagBytes ++ p)) = .ok p
    ∧ connectionNew .session (some (unixPathTagBytes ++ p)) false line
        = .err (.connect p) := by
  have hres : resolveBusPath .session (some (unixPathTagBytes ++ p)) = .ok p := by
    simp [resolveBusPath, unixPathTagBytes, List.isPrefixOf]
  refine ⟨?_, ?_, hres, ?_⟩
  · simp [connectionNew, resolveBusPath]
  · intro v hv
    simp [connectionNew, resolveBusPath, hv]
  · simp [connectionNew, hres]

/-- C3 witness: concrete absent and malformed values, and a concrete
path parsed out of the tag. -/
theorem session_bus_address_resolution_witness :
    (unixPathTagBytes.isPrefixOf [120] = false
      ∧ connectionNew .session (some [120]) true [] = .err (.sessionBusEnvVar (some [120])))
    ∧ connectionNew .session none true [] = .err (.sessionBusEnvVar none)
    ∧ resolveBusPath .session (some (unixPathTagBytes ++ [47, 97])) = .ok [47, 97] :=
  ⟨⟨by decide, (session_bus_address_resolution [] []).2.1 [120] (by decide)⟩,
    (session_bus_address_resolution [] []).1,
    (session_bus_address_resolution [47, 97] []).2.2.1⟩

/-- C1: an authentication response line that begins with `OK `, ends
with `\r\n`, and carries at least 32 bytes after `OK ` makes the
handshake succeed, and `server_guid` on the resulting connection
returns exactly the 32 bytes immediately following `OK ` in that
line. -/
theorem handshake_captures_guid (p rest line : List Nat)
    (hstart : line.take 3 = okTagBytes)
    (hend : line = rest ++ [crByte, lfByte])
    (hlen : 35 ≤ line.length) :
    connectionNew (.unixSocketFile p) none true line
      = .conn (Connection.mk [0] 0 [] ((line.drop 3).take 32))
    ∧ (Connection.mk [0] 0 [] ((line.drop 3).take 32)).server_guid = (line.drop 3).take 32
    ∧ ((line.drop 3).take 32).length = 32 := by
  have hcr : crCheck line = true := by
    rw [hend]
    simp [crCheck, List.reverse_append]
  have hproc : processAuthLine line = .ok ((line.drop 3).take 32) := by
    rw [processAuthLine]
    have h3 : okTagBytes.length = 3 := rfl
    rw [h3, if_neg (by simp [hcr]), if_pos hstart, if_pos (by omega)]
  refine ⟨?_, rfl, ?_⟩
  · simp [connectionNew, resolveBusPath, hproc]
  · simp [List.length_take, List.length_drop]
    omega

/-- C1 witness: the line `OK ` + 32 `a` bytes + `\r\n`. -/
theorem handshake_captures_guid_witness :
    connectionNew (.unixSocketFile []) none true
        (okTagBytes ++ List.replicate 32 97 ++ [crByte, lfByte])
      = .conn (Connection.mk [0] 0 []
          (((okTagBytes ++ List.replicate 32 97 ++ [crByte, lfByte]).drop 3).take 32)) :=
  (handshake_captures_guid [] (okTagBytes ++ List.replicate 32 97)
    (okTagBytes ++ List.replicate 32 97 ++ [crByte, lfByte])
    (by decide) (by decide) (by decide)).1

/-- C2 counterexample: the 37-byte line `OK ` + 32 `a` bytes + `\r` +
`X` does not end in `\r\n` (its last byte is not `\n`; such a line is
what `read_until` yields when the stream ends without a newline), yet
`Connection::new` accepts it and returns a `Connection`, because the
source checks only the second-to-last byte. -/
theorem malformed_line_accepted :
    (okTagBytes ++ List.replicate 32 97 ++ [crByte, 88]).getLast? ≠ some lfByte
    ∧ connectionNew (.unixSocketFile []) none true
        (okTagBytes ++ List.replicate 32 97 ++ [crByte, 88])
      = .conn (Connection.mk [0] 0 [] (List.replicate 32 97)) := by
  decide

/-- C2 amended: for every authentication response line whose
second-to-last byte is not `\r` or which does not begin with `OK `,
`Connection::new` returns `ConnectError::Authenticate` and never
returns a `Connection` (the source checks only the byte before the
last, so a line ending in `\r` followed by a byte other than `\n` —
possible when the stream ends without a newline — is not rejected). -/
theorem auth_line_rejected (p line : List Nat) (env : Option (List Nat))
    (h : crCheck line = false ∨ line.take 3 ≠ okTagBytes) :
    connectionNew (.unixSocketFile p) env true line = .err .authenticate := by
  have hproc : processAuthLine line = .authErr := by
    rw [processAuthLine]
    rcases h with h | h
    · rw [if_pos (by simp [h])]
    · by_cases hcr : crCheck line = true
      · have h3 : okTagBytes.length = 3 := rfl
        rw [if_neg (by simp [hcr]), h3, if_neg h]
      · rw [if_pos hcr]
  simp [connectionNew, resolveBusPath, hproc]

/-- C2 witness: the empty line (no second-to-last byte, so the
carriage-return check fails). -/
theorem auth_line_rejected_witness :
    (crCheck [] = false ∨ List.take 3 [] ≠ okTagBytes)
    ∧ connectionNew (.unixSocketFile []) none true [] = .err .authenticate :=
  ⟨Or.inl (by decide), auth_line_rejected [] [] none (Or.inl (by decide))⟩

/-- C9: a response line that begins with `OK ` and passes the
carriage-return check but is shorter than 35 bytes drives
`Connection::new` into the out-of-bounds slice `read_buf[3..35]` — a
panic, not an `Authenticate` error, so the GUID extraction is not
total over accepted response lines. -/
theorem short_ok_line_panics (p line : List Nat)
    (hstart : line.take 3 = okTagBytes)
    (hcr : crCheck line = true)
    (hshort : line.length < 35) :
    processAuthLine line = .panicOOB
    ∧ connectionNew (.unixSocketFile p) none true line = .panicOOB := by
  have hproc : processAuthLine line = .panicOOB := by
    rw [processAuthLine]
    have h3 : okTagBytes.length = 3 := rfl
    rw [h3, if_neg (by simp [hcr]), if_pos hstart, if_neg (by omega)]
  exact ⟨hproc, by simp [connectionNew, resolveBusPath, hproc]⟩

/-- C9 witness: the line `OK a\r\n` (6 bytes). -/
theorem short_ok_line_panics_witness :
    connectionNew (.unixSocketFile []) none true [79, 75, 32, 97, crByte, lfByte]
      = .panicOOB :=
  (short_ok_line_panics [] [79, 75, 32, 97, crByte, lfByte]
    (by decide) (by decide) (by decide)).2

/-! ## SASL identity encoding (C7) -/

theorem digitChar_toNat (d : Nat) (h : d < 10) : (Nat.digitChar d).toNat = 48 + d := by
  interval_cases d <;> rfl

theorem toDigitsCore_char_range (fuel : Nat) :
    ∀ (n : Nat) (acc : List Char),
      (∀ c ∈ acc, 48 ≤ c.toNat ∧ c.toNat ≤ 57) →
      ∀ c ∈ Nat.toDigitsCore 10 fuel n acc, 48 ≤ c.toNat ∧ c.toNat ≤ 57 := by
  induction fuel with
  | zero =>
    intro n acc hacc c hc
    exact hacc c hc
  | succ f ih =>
    intro n acc hacc c hc
    have hmod : n % 10 < 10 := Nat.mod_lt _ (by omega)
    have hd : 48 ≤ (Nat.digitChar (n % 10)).toNat ∧ (Nat.digitChar (n % 10)).toNat ≤ 57 := by
      rw [digitChar_toNat (n % 10) hmod]
      omega
    have hext : ∀ x ∈ Nat.digitChar (n % 10) :: acc, 48 ≤ x.toNat ∧ x.toNat ≤ 57 := by
      intro x hx
      rcases List.mem_cons.mp hx with rfl | hx
      · exact hd
      · exact hacc x hx
    by_cases h0 : n / 10 = 0 <;> simp only [Nat.toDigitsCore, h0, if_true, if_false, ite_true, ite_false] at hc
    · exact hext c hc
    · exact ih (n / 10) (Nat.digitChar (n % 10) :: acc) hext c hc

theorem toDigits_char_range (n : Nat) :
    ∀ c ∈ Nat.toDigits 10 n, 48 ≤ c.toNat ∧ c.toNat ≤ 57 := by
  rw [Nat.toDigits]
  exact toDigitsCore_char_range (n + 1) n [] (by intro c hc; cases hc)

theorem formatHexWidth2_digit (m : Nat) (h1 : 48 ≤ m) (h2 : m ≤ 57) :
    formatHexWidth2 m = [Nat.digitChar (m / 16), Nat.digitChar (m % 16)] := by
  interval_cases m <;> rfl

theorem flatMap_congr_mem {l : List Char} {f g : Char → List Char}
    (h : ∀ a ∈ l, f a = g a) : l.flatMap f = l.flatMap g := by
  induction l with
  | nil => rfl
  | cons a t ih =>
    rw [List.flatMap_cons, List.flatMap_cons, h a (List.mem_cons_self a t),
      ih fun b hb => h b (List.mem_cons_of_mem a hb)]

/-- C7: for every numeric user credential, the SASL EXTERNAL identity
string of the `SaslAuthType::Uid` case equals the decimal-string form
of the credential with each decimal digit character replaced by the two
hexadecimal characters of that character's ASCII code point — and (at
the sample credential 1000) it is not the hexadecimal form of the
numeric value itself. -/
theorem sasl_uid_identity_encoding (uid : Nat) :
    saslAuthIdUid uid = specUidIdentity uid
    ∧ saslAuthIdUid 1000 ≠ hexOfValue 1000 := by
  refine ⟨?_, by decide⟩
  unfold saslAuthIdUid specUidIdentity
  apply flatMap_congr_mem
  intro c hc
  have h := toDigits_char_range uid c hc
  exact formatHexWidth2_digit c.toNat h.1 h.2
